import Mathlib

/-!
Shallow embedding of `etf-matcher-vector-config-loader` (src/src/lib.rs).

The library is a thin client: it fetches a TOML manifest from a fixed base
URL, parses it into a `BTreeMap<String, TickerVectorConfig>`, and fetches
binary resources referenced by the descriptors.

Effects are made explicit: the HTTP transport (`reqwest::blocking::get`
followed by `.text()` or `.bytes()`) is a `Transport` record of oracle
functions, passed to every function that performs I/O in the Rust source.
Fallible Rust functions returning `Result<_, Box<dyn Error>>` become
`Except LoaderError _`.
-/

namespace EtfLoader

/-- Kinds of error a call can surface. In the Rust source every error is a
`Box<dyn Error>`: transport errors come from `reqwest`, parse errors from
`toml::from_str`, and the not-found case is the string
`format!("Config for key '{}' not found", key)`; the three origins are
distinguishable dynamic types, modelled here as constructors. -/
inductive LoaderError where
  | transport (msg : String)
  | parse (msg : String)
  | notFound (key : String)
  deriving Repr, DecidableEq

/-- One dataset descriptor, from `struct TickerVectorConfig` in src/src/lib.rs.
`u32` fields are modelled as `Nat` (values below 2^32; no arithmetic is ever
performed on them in the source). -/
structure TickerVectorConfig where
  path : String
  description : Option String
  proto_noteboook : Option String
  last_training_time : Option String
  features : Option Nat
  vector_dimensions : Option Nat
  training_sequence_length : Option Nat
  training_data_sources : Option (List String)
  deriving Repr, DecidableEq

/-- `pub type TickerVectorConfigMap = BTreeMap<String, TickerVectorConfig>;`
modelled as the association list of the map entries in ascending key order
(the order `BTreeMap` stores and iterates them). -/
abbrev TickerVectorConfigMap := List (String × TickerVectorConfig)

/-- `struct Config`: the whole manifest, one recognized top-level table. -/
structure Config where
  ticker_vector_config : TickerVectorConfigMap
  deriving Repr, DecidableEq

/-- A primitive TOML value as it matters to this schema. -/
inductive TomlValue where
  | str (s : String)
  | int (n : Int)
  | strArray (xs : List String)
  deriving Repr, DecidableEq

/-- Syntactically well-formed TOML document: top-level tables, each mapping
entry keys to lists of (field name, value) pairs, in document order. -/
structure TomlDoc where
  tables : List (String × List (String × List (String × TomlValue)))
  deriving Repr, DecidableEq

/-- The text body returned by the transport for a text GET: `none` stands
for a body that is not syntactically valid TOML, `some doc` for a body whose
syntax tree is `doc`. -/
abbrev TomlText := Option TomlDoc

/-- The HTTP transport collaborator: `reqwest::blocking::get(url)?.text()?`
and `reqwest::blocking::get(url)?.bytes()?`. An `Except.error` covers both
network failure and failure to obtain the body. Bytes are `Nat` values. -/
structure Transport where
  getText : String → Except String TomlText
  getBytes : String → Except String (List Nat)

/-- `static BASE_URL: &str = "https://etfmatcher.com/data/";` -/
def BASE_URL : String := "https://etfmatcher.com/data/"

/-- `get_resource_url`: `format!("{}{}", BASE_URL, filename)`. -/
def get_resource_url (filename : String) : String :=
  BASE_URL ++ filename

/-- `get_symbol_map_url`: `get_resource_url("ticker_symbol_map.flatbuffers.bin")`. -/
def get_symbol_map_url : String :=
  get_resource_url "ticker_symbol_map.flatbuffers.bin"

/-- Rust's `str::starts_with(pat)`: the pattern is a leading substring of
the receiver (a byte-wise test in Rust, equivalently a character-wise test
on valid UTF-8, and exact and case-sensitive). -/
def starts_with (s pat : String) : Bool :=
  pat.data.isPrefixOf s.data

/-- The `let url = ...` computation inside `get_resource`: the fetch target
chosen for a given `path` argument. -/
def get_resource_target (path : String) : String :=
  if starts_with path "http://" || starts_with path "https://" then
    path
  else
    get_resource_url path

/-- `get_resource`: resolve the fetch target, then
`reqwest::blocking::get(url)?.bytes()?` and return the bytes. -/
def get_resource (t : Transport) (path : String) : Except LoaderError (List Nat) :=
  match t.getBytes (get_resource_target path) with
  | .error e => .error (.transport e)
  | .ok b => .ok b

/-- `get_symbol_map`: `get_resource(&get_symbol_map_url())`. -/
def get_symbol_map (t : Transport) : Except LoaderError (List Nat) :=
  get_resource t get_symbol_map_url

/-- Association lookup on a field list of one TOML table entry. -/
def getField (fields : List (String × TomlValue)) (name : String) : Option TomlValue :=
  match fields with
  | [] => none
  | (k, v) :: rest => if k = name then some v else getField rest name

/-- Modelled from the spec: the deserializer collaborator's reading of an
optional string field (`Option<String>` with serde): absent field becomes
`none`, a string value becomes `some`, any other type is a parse failure. -/
def readOptStr (fields : List (String × TomlValue)) (name : String) :
    Except String (Option String) :=
  match getField fields name with
  | none => .ok none
  | some (.str s) => .ok (some s)
  | some _ => .error ("invalid type for field " ++ name)

/-- Modelled from the spec: reading an optional `u32` field: absent becomes
`none`, an integer in `[0, 2^32)` becomes `some`, anything else fails. -/
def readOptU32 (fields : List (String × TomlValue)) (name : String) :
    Except String (Option Nat) :=
  match getField fields name with
  | none => .ok none
  | some (.int n) =>
      if 0 ≤ n ∧ n < 4294967296 then .ok (some n.toNat)
      else .error ("out of range for field " ++ name)
  | some _ => .error ("invalid type for field " ++ name)

/-- Modelled from the spec: reading an optional array-of-strings field. -/
def readOptStrList (fields : List (String × TomlValue)) (name : String) :
    Except String (Option (List String)) :=
  match getField fields name with
  | none => .ok none
  | some (.strArray xs) => .ok (some xs)
  | some _ => .error ("invalid type for field " ++ name)

/-- Modelled from the spec: deserializing one descriptor (`#[derive(Deserialize)]
TickerVectorConfig`): `path` is a required string — missing or mistyped `path`
fails the parse; every other recognized field is optional; unknown fields are
ignored. -/
def parseEntry (fields : List (String × TomlValue)) :
    Except String TickerVectorConfig := do
  let path ←
    match getField fields "path" with
    | none => Except.error "missing field path"
    | some (.str s) => Except.ok s
    | some _ => Except.error "invalid type for field path"
  let description ← readOptStr fields "description"
  let proto_noteboook ← readOptStr fields "proto_noteboook"
  let last_training_time ← readOptStr fields "last_training_time"
  let features ← readOptU32 fields "features"
  let vector_dimensions ← readOptU32 fields "vector_dimensions"
  let training_sequence_length ← readOptU32 fields "training_sequence_length"
  let training_data_sources ← readOptStrList fields "training_data_sources"
  pure { path, description, proto_noteboook, last_training_time, features,
         vector_dimensions, training_sequence_length, training_data_sources }

/-- Ordered insertion into the association-list model of the `BTreeMap`:
keeps ascending key order, replaces the value when the key is already
present (last write wins). -/
def btreeInsert (key : String) (v : TickerVectorConfig) :
    TickerVectorConfigMap → TickerVectorConfigMap
  | [] => [(key, v)]
  | (k, w) :: rest =>
      if key < k then (key, v) :: (k, w) :: rest
      else if key = k then (key, v) :: rest
      else (k, w) :: btreeInsert key v rest

/-- Modelled from the spec: serde's `BTreeMap` deserialization loop — visit
the table entries in document order, deserialize each descriptor, and insert
it into the accumulated map; the first failing entry fails the whole parse. -/
def parseEntriesAux (acc : TickerVectorConfigMap) :
    List (String × List (String × TomlValue)) →
    Except String TickerVectorConfigMap
  | [] => .ok acc
  | (k, fields) :: rest =>
      match parseEntry fields with
      | .error e => .error e
      | .ok cfg => parseEntriesAux (btreeInsert k cfg acc) rest

/-- Lookup of the one recognized top-level table, named
`ticker_vector_config` in the document (serde rename). -/
def getTickerVectorTable :
    List (String × List (String × List (String × TomlValue))) →
    Option (List (String × List (String × TomlValue)))
  | [] => none
  | (k, tbl) :: rest =>
      if k = "ticker_vector_config" then some tbl else getTickerVectorTable rest

/-- Modelled from the spec: `toml::from_str::<Config>` — the deserializer
collaborator, external to src/. Syntactically malformed text fails; the
top-level must contain the `ticker_vector_config` table (unknown top-level
tables are ignored); each entry must conform to the descriptor schema. -/
def toml_from_str (text : TomlText) : Except String Config :=
  match text with
  | none => .error "TOML syntax error"
  | some doc =>
      match getTickerVectorTable doc.tables with
      | none => .error "missing field ticker_vector_config"
      | some entries =>
          match parseEntriesAux [] entries with
          | .error e => .error e
          | .ok m => .ok { ticker_vector_config := m }

/-- `load_all_configs_from_url`: fetch the text at `url`, parse it with
`toml::from_str`, return `config.ticker_vector_config`. -/
def load_all_configs_from_url (t : Transport) (url : String) :
    Except LoaderError TickerVectorConfigMap :=
  match t.getText url with
  | .error e => .error (.transport e)
  | .ok text =>
      match toml_from_str text with
      | .error e => .error (.parse e)
      | .ok config => .ok config.ticker_vector_config

/-- `get_all_etf_matcher_configs`:
`load_all_configs_from_url(&format!("{}ticker_vector_configs.toml", BASE_URL))`. -/
def get_all_etf_matcher_configs (t : Transport) :
    Except LoaderError TickerVectorConfigMap :=
  load_all_configs_from_url t (BASE_URL ++ "ticker_vector_configs.toml")

/-- `get_config_by_key`: `configs.get(key)` on the `BTreeMap` — a pure
lookup, exact case-sensitive string match, no I/O, `configs` unchanged. -/
def get_config_by_key (configs : TickerVectorConfigMap) (key : String) :
    Option TickerVectorConfig :=
  match configs with
  | [] => none
  | (k, v) :: rest => if key = k then some v else get_config_by_key rest key

/-- `get_etf_matcher_config_by_key`: fetch all configs, then look the key up;
an absent key becomes the error `format!("Config for key '{}' not found", key)`,
modelled as `LoaderError.notFound key`. -/
def get_etf_matcher_config_by_key (t : Transport) (key : String) :
    Except LoaderError TickerVectorConfig :=
  match get_all_etf_matcher_configs t with
  | .error e => .error e
  | .ok all =>
      match get_config_by_key all key with
      | none => .error (.notFound key)
      | some c => .ok c

/-- `get_ticker_vectors_collection_by_key`: resolve the config by key, then
fetch the bytes at `config.path`. -/
def get_ticker_vectors_collection_by_key (t : Transport) (key : String) :
    Except LoaderError (List Nat) :=
  match get_etf_matcher_config_by_key t key with
  | .error e => .error e
  | .ok config => get_resource t config.path

/-! ### Concrete fixtures, mirroring tests/config_tests.rs -/

/-- The descriptor the repository's unit test stores under key `"test"`. -/
def demoCfg : TickerVectorConfig :=
  { path := "test_path.bin"
    description := some "Test Config"
    proto_noteboook := none
    last_training_time := some "2025-01-01T00:00:00Z"
    features := some 100
    vector_dimensions := some 200
    training_sequence_length := some 50
    training_data_sources := some ["source1", "source2"] }

/-- A one-entry map, as built in `test_get_config_by_key`. -/
def demoMap : TickerVectorConfigMap := [("test", demoCfg)]

/-- A well-formed manifest document holding one entry under key `"test"`. -/
def demoDoc : TomlDoc :=
  ⟨[("ticker_vector_config",
      [("test",
        [("path", .str "test_path.bin"),
         ("description", .str "Test Config"),
         ("last_training_time", .str "2025-01-01T00:00:00Z"),
         ("features", .int 100),
         ("vector_dimensions", .int 200),
         ("training_sequence_length", .int 50),
         ("training_data_sources", .strArray ["source1", "source2"])])])]⟩

/-- A manifest document whose second entry is missing the required `path`
field (the scenario of end-to-end test C). -/
def badDoc : TomlDoc :=
  ⟨[("ticker_vector_config",
      [("test", [("path", .str "test_path.bin")]),
       ("bad", [("description", .str "no path here")])])]⟩

/-- A transport serving `demoDoc` as the well-known manifest, and bytes for
the dataset file it references. -/
def demoTransport : Transport :=
  { getText := fun url =>
      if url = "https://etfmatcher.com/data/ticker_vector_configs.toml" then
        .ok (some demoDoc)
      else
        .error "connection refused"
    getBytes := fun url =>
      if url = "https://etfmatcher.com/data/test_path.bin" then
        .ok [1, 2, 3]
      else
        .error "connection refused" }

/-- A second transport: same text responses as `demoTransport`, different
byte responses. -/
def demoTransportAlt : Transport :=
  { getText := fun url =>
      if url = "https://etfmatcher.com/data/ticker_vector_configs.toml" then
        .ok (some demoDoc)
      else
        .error "connection refused"
    getBytes := fun _ => .error "offline" }

/-- A transport serving the malformed manifest `badDoc`. -/
def badTransport : Transport :=
  { getText := fun url =>
      if url = "https://etfmatcher.com/data/ticker_vector_configs.toml" then
        .ok (some badDoc)
      else
        .error "connection refused"
    getBytes := fun _ => .error "offline" }

/-! ### Helper lemmas -/

/-- Prepending the base URL strictly lengthens a string, so the result is
never the original string. -/
theorem base_url_append_ne (p : String) : BASE_URL ++ p ≠ p := by
  intro h
  have hlen := congrArg String.length h
  rw [String.length_append] at hlen
  have hb : BASE_URL.length = 28 := rfl
  omega

/-! ### Claim theorems -/

/-- C1: for every input string `p`, the fetch target chosen by `get_resource`
is `p` itself, used verbatim, iff `p` starts with the exact case-sensitive
prefixes for the http or https schemes; for every other input the fetch
target is `BASE_URL ++ p`; and `get_resource` queries the transport exactly
at that target. -/
theorem get_resource_target_policy (p : String) :
    (get_resource_target p = p ↔
      (starts_with p "http://" = true ∨ starts_with p "https://" = true)) ∧
    (¬ (starts_with p "http://" = true ∨ starts_with p "https://" = true) →
      get_resource_target p = BASE_URL ++ p) ∧
    (∀ t : Transport,
      get_resource t p =
        (t.getBytes (get_resource_target p)).mapError LoaderError.transport) := by
  have htarget : ∀ t : Transport,
      get_resource t p =
        (t.getBytes (get_resource_target p)).mapError LoaderError.transport := by
    intro t
    cases h : t.getBytes (get_resource_target p) <;>
      simp [get_resource, Except.mapError, h]
  by_cases hp : (starts_with p "http://" || starts_with p "https://") = true
  · have heq : get_resource_target p = p := by
      simp [get_resource_target, hp]
    refine ⟨⟨fun _ => ?_, fun _ => heq⟩, fun hn => absurd ?_ hn, htarget⟩
    · exact Bool.or_eq_true_iff.mp hp
    · exact Bool.or_eq_true_iff.mp hp
  · have heq : get_resource_target p = BASE_URL ++ p := by
      simp only [Bool.or_eq_true] at hp
      simp [get_resource_target, get_resource_url, hp]
    refine ⟨⟨fun h => absurd (heq ▸ h) (base_url_append_ne p), fun h => ?_⟩,
      fun _ => heq, htarget⟩
    exact absurd (Bool.or_eq_true_iff.mpr h) hp

/-- Witness for C1, at the scheme-less input `"ftp://host/x"`: the second
conjunct applies and the fetch target is the base-URL concatenation. -/
theorem get_resource_target_policy_witness :
    get_resource_target "ftp://host/x" = BASE_URL ++ "ftp://host/x" :=
  (get_resource_target_policy "ftp://host/x").2.1 (by decide)

/-- C5: for every filename `f` not starting with the http or https scheme,
`get_resource_url f` is exactly the concatenation `BASE_URL ++ f`, where
`BASE_URL` is the constant string `"https://etfmatcher.com/data/"`; a pure
string computation with no normalization. -/
theorem get_resource_url_concat (f : String)
    (_h : ¬ (starts_with f "http://" = true ∨ starts_with f "https://" = true)) :
    get_resource_url f = BASE_URL ++ f ∧
      BASE_URL = "https://etfmatcher.com/data/" :=
  ⟨rfl, rfl⟩

/-- Witness for C5 at `"dataset.bin"`. -/
theorem get_resource_url_concat_witness :
    get_resource_url "dataset.bin" = BASE_URL ++ "dataset.bin" ∧
      BASE_URL = "https://etfmatcher.com/data/" :=
  get_resource_url_concat "dataset.bin" (by decide)

/-- C7: `get_all_etf_matcher_configs` is exactly `load_all_configs_from_url`
applied to the fixed manifest URL, the hardcoded base URL followed by the
fixed filename `ticker_vector_configs.toml`; it holds no state, so each call
re-queries the transport. -/
theorem get_all_configs_fixed_url (t : Transport) :
    get_all_etf_matcher_configs t =
      load_all_configs_from_url t
        "https://etfmatcher.com/data/ticker_vector_configs.toml" := by
  have h : BASE_URL ++ "ticker_vector_configs.toml" =
      "https://etfmatcher.com/data/ticker_vector_configs.toml" := by decide
  rw [get_all_etf_matcher_configs, h]

/-- C8: `get_symbol_map_url` is exactly the base URL followed by the
well-known asset name, and `get_symbol_map` is `get_resource` applied to
that URL. -/
theorem symbol_map_url_and_fetch :
    get_symbol_map_url =
        "https://etfmatcher.com/data/ticker_symbol_map.flatbuffers.bin" ∧
      ∀ t : Transport, get_symbol_map t = get_resource t get_symbol_map_url :=
  ⟨by decide, fun _ => rfl⟩

/-- C2: on a map whose entries satisfy the `BTreeMap` representation
invariant (strictly ascending keys), `get_config_by_key` returns `some` of
the exact stored descriptor for a present key, and `none` for any key that
is not among the stored keys — an exact, case-sensitive match. The lookup
is pure by type: it takes no `Transport` and returns the descriptor without
touching the map. -/
theorem get_config_by_key_lookup (m : TickerVectorConfigMap) (k : String)
    (hs : m.Pairwise (fun a b => a.1 < b.1)) :
    (∀ v, (k, v) ∈ m → get_config_by_key m k = some v) ∧
    (k ∉ m.map Prod.fst → get_config_by_key m k = none) := by
  constructor
  · induction m with
    | nil => intro v hv; cases hv
    | cons hd tl ih =>
      obtain ⟨k', v'⟩ := hd
      intro v hv
      rcases List.mem_cons.mp hv with heq | hmem
      · obtain ⟨hk, hv'⟩ := Prod.mk.injEq .. ▸ heq
        simp [get_config_by_key, hk, hv']
      · have hk : k' < k := by
          have := (List.pairwise_cons.mp hs).1 (k, v) hmem
          exact this
        have hne : ¬ (k = k') := fun h => absurd (h ▸ hk) (lt_irrefl k)
        simp only [get_config_by_key, if_neg hne]
        exact ih (List.pairwise_cons.mp hs).2 v hmem
  · induction m with
    | nil => intro _; rfl
    | cons hd tl ih =>
      obtain ⟨k', v'⟩ := hd
      intro habs
      have hne : ¬ (k = k') := by
        intro h
        exact habs (by simp [h])
      simp only [get_config_by_key, if_neg hne]
      exact ih (List.pairwise_cons.mp hs).2 (fun h => habs (by simp [h]))

/-- Witness for C2 on the one-entry map of the repository's unit test:
`"test"` is found field-for-field, `"nonexistent"` and the case-differing
`"Test"` are absent. -/
theorem get_config_by_key_lookup_witness :
    get_config_by_key demoMap "test" = some demoCfg ∧
      get_config_by_key demoMap "nonexistent" = none ∧
      get_config_by_key demoMap "Test" = none :=
  ⟨(get_config_by_key_lookup demoMap "test" (by decide)).1 demoCfg (by decide),
   (get_config_by_key_lookup demoMap "nonexistent" (by decide)).2 (by decide),
   (get_config_by_key_lookup demoMap "Test" (by decide)).2 (by decide)⟩

/-- C3: when the manifest fetch-and-parse succeeds but the key is absent
from the resulting map, `get_etf_matcher_config_by_key` fails with the
not-found error naming the key, `get_ticker_vectors_collection_by_key`
returns that very same error, and that error is distinct from every
transport error. -/
theorem config_by_key_not_found (t : Transport) (k : String)
    (m : TickerVectorConfigMap)
    (hok : get_all_etf_matcher_configs t = .ok m)
    (habs : get_config_by_key m k = none) :
    get_etf_matcher_config_by_key t k = .error (.notFound k) ∧
      get_ticker_vectors_collection_by_key t k = .error (.notFound k) ∧
      ∀ msg, LoaderError.notFound k ≠ LoaderError.transport msg := by
  have h1 : get_etf_matcher_config_by_key t k = .error (.notFound k) := by
    simp [get_etf_matcher_config_by_key, hok, habs]
  refine ⟨h1, ?_, ?_⟩
  · simp [get_ticker_vectors_collection_by_key, h1]
  · intro msg h
    cases h

/-- Witness for C3: against `demoTransport`, whose manifest holds only the
key `"test"`, looking up `"nonexistent_key"` yields the not-found error. -/
theorem config_by_key_not_found_witness :
    get_etf_matcher_config_by_key demoTransport "nonexistent_key" =
        .error (.notFound "nonexistent_key") ∧
      get_ticker_vectors_collection_by_key demoTransport "nonexistent_key" =
        .error (.notFound "nonexistent_key") ∧
      ∀ msg, LoaderError.notFound "nonexistent_key" ≠
        LoaderError.transport msg :=
  config_by_key_not_found demoTransport "nonexistent_key" demoMap
    rfl (by decide)

/-- C6: `get_ticker_vectors_collection_by_key` is exactly the composition of
config resolution and resource fetch: any error of the resolution step is
returned unchanged and unwrapped, and on resolution success the result is
exactly `get_resource` applied to the resolved `config.path`. -/
theorem ticker_vectors_collection_composition (t : Transport) (k : String) :
    (∀ e, get_etf_matcher_config_by_key t k = .error e →
        get_ticker_vectors_collection_by_key t k = .error e) ∧
    (∀ c, get_etf_matcher_config_by_key t k = .ok c →
        get_ticker_vectors_collection_by_key t k = get_resource t c.path) := by
  constructor
  · intro e h
    simp [get_ticker_vectors_collection_by_key, h]
  · intro c h
    simp [get_ticker_vectors_collection_by_key, h]

/-- Witness for C6: against `demoTransport`, resolving `"test"` succeeds
with `demoCfg`, and the collection fetch is exactly the resource fetch of
its path. -/
theorem ticker_vectors_collection_composition_witness :
    get_ticker_vectors_collection_by_key demoTransport "test" =
      get_resource demoTransport demoCfg.path :=
  (ticker_vectors_collection_composition demoTransport "test").2 demoCfg
    rfl

/-- C9: the result of `get_all_etf_matcher_configs` is a deterministic
function of the transport's text response for the manifest URL alone: two
transports (equivalently, two successive calls against an unchanged remote)
that answer the manifest request identically produce equal maps, with no
hidden state influencing either call. -/
theorem get_all_configs_deterministic (t₁ t₂ : Transport)
    (h : t₁.getText (BASE_URL ++ "ticker_vector_configs.toml") =
         t₂.getText (BASE_URL ++ "ticker_vector_configs.toml")) :
    get_all_etf_matcher_configs t₁ = get_all_etf_matcher_configs t₂ := by
  simp only [get_all_etf_matcher_configs, load_all_configs_from_url, h]

/-- Witness for C9: `demoTransport` and `demoTransportAlt` share text
responses but differ on byte responses; their config maps agree. -/
theorem get_all_configs_deterministic_witness :
    get_all_etf_matcher_configs demoTransport =
      get_all_etf_matcher_configs demoTransportAlt :=
  get_all_configs_deterministic demoTransport demoTransportAlt rfl

/-- If some table entry fails to deserialize, the whole entry loop fails,
whatever was accumulated before it. -/
theorem parseEntriesAux_error_of_mem (k : String)
    (fields : List (String × TomlValue)) (e : String)
    (entries : List (String × List (String × TomlValue)))
    (hmem : (k, fields) ∈ entries) (hbad : parseEntry fields = .error e) :
    ∀ acc, ∃ msg, parseEntriesAux acc entries = .error msg := by
  induction entries with
  | nil => cases hmem
  | cons hd tl ih =>
    obtain ⟨k', fields'⟩ := hd
    intro acc
    rcases List.mem_cons.mp hmem with heq | hmem'
    · have hbad' : parseEntry fields' = .error e := by
        cases heq
        exact hbad
      exact ⟨e, by simp [parseEntriesAux, hbad']⟩
    · cases hpe : parseEntry fields' with
      | error e' => exact ⟨e', by simp [parseEntriesAux, hpe]⟩
      | ok cfg =>
        obtain ⟨msg, hmsg⟩ := ih hmem' (btreeInsert k' cfg acc)
        exact ⟨msg, by simp [parseEntriesAux, hpe, hmsg]⟩

/-- Membership in the ordered-insert result comes from the inserted pair or
from the original map. -/
theorem mem_btreeInsert {x : String × TickerVectorConfig} {key : String}
    {v : TickerVectorConfig} {m : TickerVectorConfigMap}
    (h : x ∈ btreeInsert key v m) : x = (key, v) ∨ x ∈ m := by
  induction m with
  | nil => simpa [btreeInsert] using h
  | cons hd tl ih =>
    obtain ⟨k, w⟩ := hd
    by_cases h1 : key < k
    · simp only [btreeInsert, if_pos h1] at h
      rcases List.mem_cons.mp h with h | h
      · exact .inl h
      · exact .inr h
    · by_cases h2 : key = k
      · simp only [btreeInsert, if_neg h1, if_pos h2] at h
        rcases List.mem_cons.mp h with h | h
        · exact .inl h
        · exact .inr (List.mem_cons_of_mem _ h)
      · simp only [btreeInsert, if_neg h1, if_neg h2] at h
        rcases List.mem_cons.mp h with h | h
        · exact .inr (h ▸ List.mem_cons_self _ _)
        · rcases ih h with h | h
          · exact .inl h
          · exact .inr (List.mem_cons_of_mem _ h)

/-- Ordered insertion preserves the strictly-ascending-keys invariant. -/
theorem pairwise_btreeInsert {key : String} {v : TickerVectorConfig}
    {m : TickerVectorConfigMap}
    (h : m.Pairwise (fun a b => a.1 < b.1)) :
    (btreeInsert key v m).Pairwise (fun a b => a.1 < b.1) := by
  induction m with
  | nil => simp [btreeInsert]
  | cons hd tl ih =>
    obtain ⟨k, w⟩ := hd
    obtain ⟨hhd, htl⟩ := List.pairwise_cons.mp h
    by_cases h1 : key < k
    · simp only [btreeInsert, if_pos h1]
      refine List.pairwise_cons.mpr ⟨?_, h⟩
      intro x hx
      rcases List.mem_cons.mp hx with hx | hx
      · rw [hx]
        exact h1
      · exact lt_trans h1 (hhd x hx)
    · by_cases h2 : key = k
      · simp only [btreeInsert, if_neg h1, if_pos h2]
        refine List.pairwise_cons.mpr ⟨?_, htl⟩
        intro x hx
        rw [h2]
        exact hhd x hx
      · simp only [btreeInsert, if_neg h1, if_neg h2]
        refine List.pairwise_cons.mpr ⟨?_, ih htl⟩
        intro x hx
        rcases mem_btreeInsert hx with hx | hx
        · rw [hx]
          exact lt_of_le_of_ne (le_of_not_lt h1) (Ne.symm h2)
        · exact hhd x hx

/-- Any map the entry loop successfully builds from a sorted accumulator has
strictly ascending keys. -/
theorem parseEntriesAux_ok_pairwise
    (entries : List (String × List (String × TomlValue))) :
    ∀ acc m, acc.Pairwise (fun a b => a.1 < b.1) →
      parseEntriesAux acc entries = .ok m →
      m.Pairwise (fun a b => a.1 < b.1) := by
  induction entries with
  | nil =>
    intro acc m hacc h
    simp only [parseEntriesAux] at h
    cases h
    exact hacc
  | cons hd tl ih =>
    obtain ⟨k, fields⟩ := hd
    intro acc m hacc h
    simp only [parseEntriesAux] at h
    split at h
    · cases h
    · exact ih _ m (pairwise_btreeInsert hacc) h

/-- A successfully parsed manifest's map has strictly ascending keys. -/
theorem toml_from_str_ok_pairwise (text : TomlText) (c : Config)
    (h : toml_from_str text = .ok c) :
    c.ticker_vector_config.Pairwise (fun a b => a.1 < b.1) := by
  cases text with
  | none => cases h
  | some doc =>
    simp only [toml_from_str] at h
    split at h
    · cases h
    · split at h
      · cases h
      · rename_i m hm
        cases h
        exact parseEntriesAux_ok_pairwise _ [] m List.Pairwise.nil hm

/-- C4: if the fetched document has an entry that does not conform to the
descriptor schema (here: its deserialization fails, e.g. the required `path`
field is missing), `load_all_configs_from_url` fails with a `ParseError` for
the whole document, and no partial map of the conforming entries is
returned. -/
theorem load_all_no_partial_map (t : Transport) (url : String)
    (doc : TomlDoc)
    (entries : List (String × List (String × TomlValue)))
    (k : String) (fields : List (String × TomlValue)) (e : String)
    (hget : t.getText url = .ok (some doc))
    (htbl : getTickerVectorTable doc.tables = some entries)
    (hmem : (k, fields) ∈ entries)
    (hbad : parseEntry fields = .error e) :
    (∃ msg, load_all_configs_from_url t url = .error (.parse msg)) ∧
      ∀ m, load_all_configs_from_url t url ≠ .ok m := by
  obtain ⟨msg, hmsg⟩ :=
    parseEntriesAux_error_of_mem k fields e entries hmem hbad []
  have hload : load_all_configs_from_url t url = .error (.parse msg) := by
    simp [load_all_configs_from_url, hget, toml_from_str, htbl, hmsg]
  refine ⟨⟨msg, hload⟩, fun m h => ?_⟩
  rw [hload] at h
  cases h

/-- Witness for C4: `badTransport` serves a manifest whose entry `"bad"`
lacks the required `path` field; loading it fails with a parse error and
never yields a map. -/
theorem load_all_no_partial_map_witness :
    (∃ msg, load_all_configs_from_url badTransport
        "https://etfmatcher.com/data/ticker_vector_configs.toml" =
        .error (.parse msg)) ∧
      ∀ m, load_all_configs_from_url badTransport
        "https://etfmatcher.com/data/ticker_vector_configs.toml" ≠ .ok m :=
  load_all_no_partial_map badTransport
    "https://etfmatcher.com/data/ticker_vector_configs.toml" badDoc
    [("test", [("path", .str "test_path.bin")]),
     ("bad", [("description", .str "no path here")])]
    "bad" [("description", .str "no path here")] "missing field path"
    rfl rfl (by decide) rfl

/-- C10: every map a successful `load_all_configs_from_url` produces (and
hence every map `get_all_etf_matcher_configs` produces) lists its entries in
strictly ascending key order and holds exactly one descriptor per key — the
`BTreeMap` invariant every successful load establishes. -/
theorem load_all_sorted_unique (t : Transport) (url : String)
    (m : TickerVectorConfigMap)
    (h : load_all_configs_from_url t url = .ok m) :
    m.Pairwise (fun a b => a.1 < b.1) ∧ (m.map Prod.fst).Nodup := by
  have hp : m.Pairwise (fun a b => a.1 < b.1) := by
    simp only [load_all_configs_from_url] at h
    split at h
    · cases h
    · split at h
      · cases h
      · rename_i config hc
        cases h
        exact toml_from_str_ok_pairwise _ config hc
  refine ⟨hp, ?_⟩
  exact List.pairwise_map.mpr (hp.imp fun hab => ne_of_lt hab)

/-- Witness for C10 on `demoTransport`: its manifest loads to `demoMap`,
which is sorted with unique keys. -/
theorem load_all_sorted_unique_witness :
    demoMap.Pairwise (fun a b => a.1 < b.1) ∧
      (demoMap.map Prod.fst).Nodup :=
  load_all_sorted_unique demoTransport
    "https://etfmatcher.com/data/ticker_vector_configs.toml" demoMap rfl

end EtfLoader
